import Mathlib

/-!
Shallow embedding of the authentication/session subsystem of the
production-ready-nodejs-backend repository:

* `src/utils/jwt.ts` — token issuing and verification (Token Codec);
* `src/models/user.entity.ts` — the `User` entity with its
  `hashPassword` lifecycle hook, `comparePassword` and `toJSON`;
* `src/services/auth.service.ts` — `AuthService.register`, `login`,
  `refreshToken`, `logout`;
* `src/middleware/auth.middleware.ts` — `extractToken`, `authenticate`,
  `optionalAuth`.

Modelling conventions:

* JWT strings are represented by the inductive `TokenStr`: a signed token
  is its payload together with the signing secret and the iat/exp claims
  (HMAC signing is a deterministic injective encoding of exactly these
  data), and any other string is `TokenStr.malformed`.
* bcrypt is modelled by a deterministic injective `bcryptHash` whose
  output is never equal to its input (real bcrypt digests carry a
  `$2b$...` header, so a digest never equals the plaintext it hashes),
  and `bcryptCompare c h` holds exactly when `h` is the hash of `c`,
  which is the contract of `bcrypt.compare`.
* The database is a list of `User` rows; TypeORM `findOneBy` is
  `List.find?`, `save` inserts or updates by primary key and fires the
  `BeforeInsert`/`BeforeUpdate` listener (`hashPassword`), and
  `repository.update` is a targeted partial update that bypasses entity
  listeners, per TypeORM semantics and the stores contracted
  partial-update primitive.
* The `Authorization` header handed to the middleware is a JavaScript
  string, modelled as its character list so that `startsWith`,
  `split(' ')`, `filter` and indexing are character-wise operations.
* Time is a natural number of seconds; each operation receives the
  current clock explicitly.
* Fallible identity lookups in the gate and in `refreshToken` are
  modelled by a function `String → Except String (Option User)` so that
  a storage-layer exception (the `.error` case) flows through the same
  try/catch structure as in the source.
-/

/-- Deterministic model of `bcrypt.hash`: prepends the bcrypt header, so the
digest of a string is never the string itself and hashing is injective. -/
def bcryptHash (s : String) : String := "$2b$10$" ++ s

/-- Model of `bcrypt.compare candidate hash`: succeeds exactly when `hash`
is the digest of `candidate`. -/
def bcryptCompare (candidate stored : String) : Bool :=
  stored == bcryptHash candidate

/-- `config.jwt.secret` default from `src/config/index.ts`. -/
def jwtSecret : String := "your-super-secret-key-here"

/-- `config.jwt.expiration` (referenced as 1h), in seconds. -/
def jwtExpirationS : Nat := 3600

/-- `config.jwt.refreshExpiration` (referenced as 7d), in seconds. -/
def jwtRefreshExpirationS : Nat := 604800

/-- `TokenPayload` from `src/utils/jwt.ts`. -/
structure TokenPayload where
  userId : String
  email : String
  type : String
deriving DecidableEq, Repr

/-- A JWT string: either the deterministic signed encoding of a payload
with a secret and iat/exp claims, or a string that is not structurally a
signed token. -/
inductive TokenStr where
  | signed (payload : TokenPayload) (secret : String) (iat : Nat) (exp : Nat)
  | malformed (raw : String)
deriving DecidableEq, Repr

/-- The `User` entity of `src/models/user.entity.ts` together with the
columns inherited from `CustomBaseEntity`. The `password` column holds
the plaintext between construction and the first save, and the bcrypt
digest afterwards, exactly as in the source. -/
structure User where
  id : String
  createdAt : Option Nat
  updatedAt : Option Nat
  deletedAt : Option Nat
  firstName : String
  lastName : String
  email : String
  password : String
  isEmailVerified : Bool
  refreshToken : Option TokenStr
  lastLoginAt : Option Nat
deriving DecidableEq, Repr

/-- `User.hashPassword` (the `@BeforeInsert`/`@BeforeUpdate` listener):
`if (this.password) { this.password = await bcrypt.hash(this.password, salt) }`.
A JavaScript string is truthy exactly when it is nonempty. -/
def User.hashPassword (u : User) : User :=
  if u.password = "" then u
  else { u with password := bcryptHash u.password }

/-- `User.comparePassword`: `bcrypt.compare(candidatePassword, this.password)`. -/
def User.comparePassword (u : User) (candidatePassword : String) : Bool :=
  bcryptCompare candidatePassword u.password

/-- Values appearing in the JSON projection of a user. -/
inductive JsonVal where
  | str (s : String)
  | bool (b : Bool)
  | nat (n : Nat)
  | tok (t : TokenStr)
  | null
deriving DecidableEq, Repr

/-- Spread of all entity columns into key/value pairs, as `{ ...this }`
produces in `User.toJSON`. -/
def User.fieldsJSON (u : User) : List (String × JsonVal) :=
  [ ("id", JsonVal.str u.id),
    ("createdAt", (u.createdAt.map JsonVal.nat).getD JsonVal.null),
    ("updatedAt", (u.updatedAt.map JsonVal.nat).getD JsonVal.null),
    ("deletedAt", (u.deletedAt.map JsonVal.nat).getD JsonVal.null),
    ("firstName", JsonVal.str u.firstName),
    ("lastName", JsonVal.str u.lastName),
    ("email", JsonVal.str u.email),
    ("password", JsonVal.str u.password),
    ("isEmailVerified", JsonVal.bool u.isEmailVerified),
    ("refreshToken", (u.refreshToken.map JsonVal.tok).getD JsonVal.null),
    ("lastLoginAt", (u.lastLoginAt.map JsonVal.nat).getD JsonVal.null) ]

/-- `User.toJSON`: spread all fields, then `delete obj.password` and
`delete obj.refreshToken`. -/
def User.toJSON (u : User) : List (String × JsonVal) :=
  (User.fieldsJSON u).filter
    (fun kv => !(kv.1 == "password" || kv.1 == "refreshToken"))

/-- The users table. -/
abbrev Db := List User

/-- `repository.findOneBy` on the email column. -/
def findOneByEmail (db : Db) (email : String) : Option User :=
  db.find? (fun u => u.email == email)

/-- `repository.findOneBy` on the id column. -/
def findOneById (db : Db) (id : String) : Option User :=
  db.find? (fun u => u.id == id)

/-- TypeORM `repository.save`: updates the row with the same primary key
when one exists (firing `@BeforeUpdate`), otherwise inserts (firing
`@BeforeInsert`). Both listeners are `User.hashPassword`. The audit
columns are maintained by the storage layer. Returns the saved entity
(the in-memory object after the listener ran) and the new table. -/
def repoSave (db : Db) (u : User) (now : Nat) : User × Db :=
  let hashed := User.hashPassword u
  match db.find? (fun r => r.id == hashed.id) with
  | some _ =>
      let saved := { hashed with updatedAt := some now }
      (saved, db.map (fun r => if r.id == hashed.id then saved else r))
  | none =>
      let saved := { hashed with createdAt := some now, updatedAt := some now }
      (saved, db ++ [saved])

/-- `generateAccessToken` from `src/utils/jwt.ts`: signs
`userId/email/type = access` with the configured secret and the
access-token lifetime. -/
def generateAccessToken (user : User) (now : Nat) : TokenStr :=
  TokenStr.signed
    { userId := user.id, email := user.email, type := "access" }
    jwtSecret now (now + jwtExpirationS)

/-- `generateRefreshToken` from `src/utils/jwt.ts`. -/
def generateRefreshToken (user : User) (now : Nat) : TokenStr :=
  TokenStr.signed
    { userId := user.id, email := user.email, type := "refresh" }
    jwtSecret now (now + jwtRefreshExpirationS)

/-- Failure modes of `jwt.verify`. -/
inductive JwtError where
  | invalidSignature
  | malformed
  | expired
deriving DecidableEq, Repr

/-- Messages carried by the corresponding `jsonwebtoken` error objects. -/
def jwtErrorMessage : JwtError → String
  | JwtError.invalidSignature => "invalid signature"
  | JwtError.malformed => "jwt malformed"
  | JwtError.expired => "jwt expired"

/-- `verifyToken` from `src/utils/jwt.ts`: `jwt.verify(token, config.jwt.secret)`,
rethrowing any verification error. Checks structure, signature and expiry
against the current clock. -/
def verifyToken (token : TokenStr) (now : Nat) : Except JwtError TokenPayload :=
  match token with
  | TokenStr.malformed _ => Except.error JwtError.malformed
  | TokenStr.signed payload secret _ exp =>
      if secret ≠ jwtSecret then Except.error JwtError.invalidSignature
      else if exp ≤ now then Except.error JwtError.expired
      else Except.ok payload

/-- Error kinds thrown by the service and middleware
(`BadRequestError` / `UnauthorizedError` from `src/utils/errors.ts`). -/
inductive AppError where
  | badRequest (message : String)
  | unauthorized (message : String)
deriving DecidableEq, Repr

/-- `RegisterDTO` from `src/services/auth.service.ts`. -/
structure RegisterDTO where
  firstName : String
  lastName : String
  email : String
  password : String
deriving DecidableEq, Repr

/-- `LoginDTO` from `src/services/auth.service.ts`. -/
structure LoginDTO where
  email : String
  password : String
deriving DecidableEq, Repr

/-- `AuthResponse` from `src/services/auth.service.ts`; `user` is the
JSON projection. -/
structure AuthResponse where
  user : List (String × JsonVal)
  accessToken : TokenStr
  refreshToken : TokenStr
deriving DecidableEq, Repr

/-- `AuthService.register`. `newId` is the primary key the storage layer
assigns to the inserted row. The first `save` fires `@BeforeInsert`, the
second (persisting the refresh token) fires `@BeforeUpdate`; both run
`hashPassword`, exactly as in the source. -/
def AuthService.register (db : Db) (data : RegisterDTO) (newId : String)
    (now : Nat) : Except AppError (AuthResponse × Db) :=
  match findOneByEmail db data.email with
  | some _ => Except.error (AppError.badRequest "Email already registered")
  | none =>
      let user : User :=
        { id := newId, createdAt := none, updatedAt := none,
          deletedAt := none, firstName := data.firstName,
          lastName := data.lastName, email := data.email,
          password := data.password, isEmailVerified := false,
          refreshToken := none, lastLoginAt := none }
      let s1 := repoSave db user now
      let accessToken := generateAccessToken s1.1 now
      let refreshTok := generateRefreshToken s1.1 now
      let user2 := { s1.1 with refreshToken := some refreshTok }
      let s2 := repoSave s1.2 user2 now
      Except.ok
        ({ user := User.toJSON s2.1, accessToken := accessToken,
           refreshToken := refreshTok }, s2.2)

/-- `AuthService.login`. On success it issues both tokens, stores the
refresh token and the login timestamp, and saves (firing `@BeforeUpdate`,
hence `hashPassword`, on the already-persisted row). -/
def AuthService.login (db : Db) (data : LoginDTO) (now : Nat) :
    Except AppError (AuthResponse × Db) :=
  match findOneByEmail db data.email with
  | none => Except.error (AppError.unauthorized "Invalid credentials")
  | some user =>
      if User.comparePassword user data.password = false then
        Except.error (AppError.unauthorized "Invalid credentials")
      else
        let accessToken := generateAccessToken user now
        let refreshTok := generateRefreshToken user now
        let user1 := { user with refreshToken := some refreshTok,
                                 lastLoginAt := some now }
        let s1 := repoSave db user1 now
        Except.ok
          ({ user := User.toJSON s1.1, accessToken := accessToken,
             refreshToken := refreshTok }, s1.2)

/-- A possibly failing point lookup by id, modelling
`userRepository.findOneBy` on the id column together with the
possibility of a storage-layer exception (the `Except.error` case). -/
abbrev IdLookup := String → Except String (Option User)

/-- The lookup induced by an in-memory table (no storage fault). -/
def dbLookupById (db : Db) : IdLookup :=
  fun id => Except.ok (findOneById db id)

/-- `AuthService.refreshToken`. The entire body runs inside
`try ... catch`, and the catch arm rethrows every failure — the jwt
verification error, the inner `UnauthorizedError` for a wrong token type,
a storage exception from `findOneBy`, and the mismatch error — as
`UnauthorizedError with message Invalid refresh token`. -/
def AuthService.refreshToken (lookupById : IdLookup) (token : TokenStr)
    (now : Nat) : Except AppError TokenStr :=
  match verifyToken token now with
  | Except.error _ =>
      Except.error (AppError.unauthorized "Invalid refresh token")
  | Except.ok payload =>
      if payload.type ≠ "refresh" then
        Except.error (AppError.unauthorized "Invalid refresh token")
      else
        match lookupById payload.userId with
        | Except.error _ =>
            Except.error (AppError.unauthorized "Invalid refresh token")
        | Except.ok none =>
            Except.error (AppError.unauthorized "Invalid refresh token")
        | Except.ok (some user) =>
            if user.refreshToken ≠ some token then
              Except.error (AppError.unauthorized "Invalid refresh token")
            else
              Except.ok (generateAccessToken user now)

/-- `AuthService.logout`: `userRepository.update` with the partial value
setting `refreshToken` to absent — a targeted update clearing the stored
refresh token of every row matching the id, bypassing entity listeners
(TypeORM `update` does not fire `@BeforeUpdate`). It resolves whether or
not any row matches. -/
def AuthService.logout (db : Db) (userId : String) : Db :=
  db.map (fun u => if u.id == userId then { u with refreshToken := none } else u)

/-- A JavaScript string viewed as its sequence of characters (the
middleware manipulates the Authorization header character-wise). -/
abbrev JsStr := List Char

/-- The characters of the string `Bearer` followed by one space, the
argument of `startsWith` in `extractToken`. -/
def bearerScheme : JsStr := "Bearer ".toList

/-- `extractToken` from `src/middleware/auth.middleware.ts`:
if the header is present (a JavaScript empty string is falsy) and starts
with the scheme, split on single spaces, drop empty parts, and return the
part at index 1 when more than one part remains. -/
def extractToken (authHeader : Option JsStr) : Option JsStr :=
  match authHeader with
  | none => none
  | some h =>
      if h.isEmpty then none
      else if bearerScheme.isPrefixOf h then
        let parts := (h.splitOnP (fun c => c == ' ')).filter
          (fun part => decide (0 < part.length))
        if parts.length > 1 then parts[1]? else none
      else none

/-- The request fields the gate may attach: `req.user`, `req.token`
(the raw token string) and `req.tokenPayload`. -/
structure ReqCtx where
  user : Option User
  token : Option JsStr
  tokenPayload : Option TokenPayload
deriving DecidableEq, Repr

/-- A request context with nothing attached. -/
def emptyCtx : ReqCtx :=
  { user := none, token := none, tokenPayload := none }

/-- Outcome of a gate middleware: the context mutations it performed and
the error it passed to `next`, if any (`none` means plain `next()`). -/
structure GateResult where
  ctx : ReqCtx
  err : Option AppError
deriving DecidableEq, Repr

/-- Core of `authenticate` after token extraction. `interp` maps the raw
token string to the token it encodes (every string is some `TokenStr`).
Each throw inside the try block reaches the catch arm, which forwards
`UnauthorizedError` with the message of the caught error. -/
def authenticateCore (tokenOpt : Option JsStr) (interp : JsStr → TokenStr)
    (lookupById : IdLookup) (now : Nat) : GateResult :=
  match tokenOpt with
  | none => { ctx := emptyCtx, err := some (AppError.unauthorized "No token provided") }
  | some s =>
      match verifyToken (interp s) now with
      | Except.error e =>
          { ctx := emptyCtx, err := some (AppError.unauthorized (jwtErrorMessage e)) }
      | Except.ok payload =>
          if payload.type ≠ "access" then
            { ctx := emptyCtx, err := some (AppError.unauthorized "Invalid token type") }
          else
            match lookupById payload.userId with
            | Except.error m =>
                { ctx := emptyCtx, err := some (AppError.unauthorized m) }
            | Except.ok none =>
                { ctx := emptyCtx, err := some (AppError.unauthorized "User not found") }
            | Except.ok (some user) =>
                { ctx := { user := some user, token := some s,
                           tokenPayload := some payload },
                  err := none }

/-- `authenticate` (required mode): extraction followed by the core. -/
def authenticate (authHeader : Option JsStr) (interp : JsStr → TokenStr)
    (lookupById : IdLookup) (now : Nat) : GateResult :=
  authenticateCore (extractToken authHeader) interp lookupById now

/-- Core of `optionalAuth` after token extraction: every early return and
the catch arm call plain `next()` with nothing attached; only full
success attaches the three fields. The catch arm also swallows a storage
exception thrown by `findOneBy`. -/
def optionalAuthCore (tokenOpt : Option JsStr) (interp : JsStr → TokenStr)
    (lookupById : IdLookup) (now : Nat) : GateResult :=
  match tokenOpt with
  | none => { ctx := emptyCtx, err := none }
  | some s =>
      match verifyToken (interp s) now with
      | Except.error _ => { ctx := emptyCtx, err := none }
      | Except.ok payload =>
          if payload.type ≠ "access" then { ctx := emptyCtx, err := none }
          else
            match lookupById payload.userId with
            | Except.error _ => { ctx := emptyCtx, err := none }
            | Except.ok none => { ctx := emptyCtx, err := none }
            | Except.ok (some user) =>
                { ctx := { user := some user, token := some s,
                           tokenPayload := some payload },
                  err := none }

/-- `optionalAuth` (optional mode): extraction followed by the core. -/
def optionalAuth (authHeader : Option JsStr) (interp : JsStr → TokenStr)
    (lookupById : IdLookup) (now : Nat) : GateResult :=
  optionalAuthCore (extractToken authHeader) interp lookupById now

/-- Subject id carried by a token string, when it is structurally a
signed token. -/
def tokenSubjectId : TokenStr → Option String
  | TokenStr.signed payload _ _ _ => some payload.userId
  | TokenStr.malformed _ => none

/-- Either nothing is attached to the request, or all three fields are. -/
def allOrNothing (c : ReqCtx) : Prop :=
  c = emptyCtx ∨
  ∃ u s p, c = { user := some u, token := some s, tokenPayload := some p }

/-- A persisted identity row: the stored password column already holds
the bcrypt digest of the plaintext `password123`, as it would after a
single insert. -/
def uW : User :=
  { id := "u1", createdAt := none, updatedAt := none, deletedAt := none,
    firstName := "John", lastName := "Doe", email := "john@example.com",
    password := bcryptHash "password123", isEmailVerified := false,
    refreshToken := none, lastLoginAt := none }

/-- The registration body of the scenario seeds. -/
def regDataW : RegisterDTO :=
  { firstName := "John", lastName := "Doe", email := "john@example.com",
    password := "password123" }

/-- Registration of `regDataW` against an empty table. -/
def registerW : Except AppError (AuthResponse × Db) :=
  AuthService.register [] regDataW "u1" 0

/-- Placeholder used only to destructure `Except` results of concrete
runs that are proved to be `ok`. -/
def authRespFallback : AuthResponse :=
  { user := [], accessToken := TokenStr.malformed "",
    refreshToken := TokenStr.malformed "" }

/-- The response produced by `registerW`. -/
def registerWRes : AuthResponse :=
  (registerW.toOption.getD (authRespFallback, [])).1

/-- The table produced by `registerW`. -/
def registerWDb : Db :=
  (registerW.toOption.getD (authRespFallback, [])).2

/-- Register, then log in with the very same email and plaintext
password (scenario seeds 1 and 4). -/
def registerThenLoginW : Except AppError (AuthResponse × Db) :=
  registerW.bind (fun rd =>
    AuthService.login rd.2
      { email := "john@example.com", password := "password123" } 1)

/-- Login body carrying the plaintext matching the digest stored in `uW`. -/
def loginDtoA : LoginDTO :=
  { email := "john@example.com", password := "password123" }

/-- Login body whose candidate password is the digest stored in `uW`
after one login has re-hashed it. -/
def loginDtoB : LoginDTO :=
  { email := "john@example.com", password := bcryptHash "password123" }

/-- Single-row table for the double-login scenarios. -/
def c3Db : Db := [uW]

/-- Two successful logins for the same identity at the same clock second,
then a refresh with the token issued by the first login. -/
def c3SameTime : Except AppError TokenStr :=
  (AuthService.login c3Db loginDtoA 5).bind (fun r1 =>
    (AuthService.login r1.2 loginDtoB 5).bind (fun r2 =>
      AuthService.refreshToken (dbLookupById r2.2) r1.1.refreshToken 6))

/-- Result of the first login of the distinct-times scenario. -/
def c3L1 : AuthResponse × Db :=
  (AuthService.login c3Db loginDtoA 5).toOption.getD (authRespFallback, [])

/-- Result of the second login of the distinct-times scenario, one
second later. -/
def c3L2 : AuthResponse × Db :=
  (AuthService.login c3L1.2 loginDtoB 6).toOption.getD (authRespFallback, [])

/-- Interpretation under which every header token string decodes to one
fixed valid, unexpired access token for `u1`. -/
def interpC8 : JsStr → TokenStr :=
  fun _ =>
    TokenStr.signed
      { userId := "u1", email := "john@example.com", type := "access" }
      jwtSecret 0 10

/-- A lookup whose underlying store is down: every call raises. -/
def lookupFailC8 : IdLookup :=
  fun _ => Except.error "database connection lost"

/-! Helper lemmas shared by the claim theorems. -/

lemma find?_congr_mem {α : Type} {l : List α} {p q : α → Bool}
    (h : ∀ x ∈ l, p x = q x) : l.find? p = l.find? q := by
  induction l with
  | nil => rfl
  | cons a l ih =>
      cases hq : q a with
      | true =>
          rw [List.find?_cons_of_pos l
              (by rw [h a (List.mem_cons_self a l)]; exact hq),
            List.find?_cons_of_pos l hq]
      | false =>
          rw [List.find?_cons_of_neg l
              (by rw [h a (List.mem_cons_self a l)]; simp [hq]),
            List.find?_cons_of_neg l (by simp [hq])]
          exact ih (fun x hx => h x (List.mem_cons_of_mem a hx))

lemma find?_key_unique {l : List User} {u : User} (key : User → String)
    (hnd : (l.map key).Nodup) (hu : u ∈ l) :
    l.find? (fun r => key r == key u) = some u := by
  induction l with
  | nil => cases hu
  | cons a l ih =>
      rw [List.map_cons, List.nodup_cons] at hnd
      rcases List.mem_cons.mp hu with rfl | hu2
      · exact List.find?_cons_of_pos l (by simp)
      · have hne : key a ≠ key u := by
          intro h
          exact hnd.1 (h ▸ List.mem_map_of_mem key hu2)
        rw [List.find?_cons_of_neg l (by simpa using hne)]
        exact ih hnd.2 hu2

lemma toJSON_keys (u : User) :
    (User.toJSON u).map Prod.fst =
      ["id", "createdAt", "updatedAt", "deletedAt", "firstName", "lastName",
       "email", "isEmailVerified", "lastLoginAt"] := rfl

lemma toJSON_no_secret_keys (u : User) :
    "password" ∉ (User.toJSON u).map Prod.fst ∧
    "refreshToken" ∉ (User.toJSON u).map Prod.fst := by
  rw [toJSON_keys]
  exact ⟨by decide, by decide⟩

lemma logout_refreshToken_none {db : Db} {i : String} {u : User}
    (hu : u ∈ AuthService.logout db i) (hid : u.id = i) :
    u.refreshToken = none := by
  unfold AuthService.logout at hu
  rcases List.mem_map.mp hu with ⟨r, _, heq⟩
  by_cases h : r.id == i
  · rw [if_pos h] at heq
    rw [← heq]
  · rw [if_neg h] at heq
    subst heq
    exact absurd hid (by simpa using h)

lemma hashPassword_id (u : User) : (User.hashPassword u).id = u.id := by
  unfold User.hashPassword
  split <;> rfl

lemma hashPassword_email (u : User) :
    (User.hashPassword u).email = u.email := by
  unfold User.hashPassword
  split <;> rfl

lemma hashPassword_refreshToken (u : User) :
    (User.hashPassword u).refreshToken = u.refreshToken := by
  unfold User.hashPassword
  split <;> rfl

lemma login_ok_unpack {db : Db} {d : LoginDTO} {now : Nat} {r : AuthResponse}
    {dbOut : Db} (h : AuthService.login db d now = Except.ok (r, dbOut)) :
    ∃ u, findOneByEmail db d.email = some u ∧
      r.refreshToken = generateRefreshToken u now ∧
      dbOut = (repoSave db
        { u with refreshToken := some (generateRefreshToken u now),
                 lastLoginAt := some now } now).2 := by
  unfold AuthService.login at h
  cases hf : findOneByEmail db d.email with
  | none => rw [hf] at h; exact absurd h (by simp)
  | some u =>
      rw [hf] at h
      dsimp only at h
      by_cases hc : User.comparePassword u d.password = false
      · rw [if_pos hc] at h; exact absurd h (by simp)
      · rw [if_neg hc] at h
        rw [Except.ok.injEq, Prod.mk.injEq] at h
        exact ⟨u, rfl, by rw [← h.1], h.2.symm⟩

lemma repoSave_update {db : Db} (u w : User) (now : Nat)
    (hw : w.id = u.id)
    (hfind : db.find? (fun r => r.id == u.id) = some u) :
    repoSave db w now =
      ({ User.hashPassword w with updatedAt := some now },
        db.map (fun r =>
          if r.id == u.id then
            { User.hashPassword w with updatedAt := some now }
          else r)) := by
  unfold repoSave
  dsimp only
  simp only [hashPassword_id, hw]
  rw [hfind]

lemma find?_email_map_update {db : Db} {u v : User} {e : String}
    (hids : (db.map User.id).Nodup)
    (hu : db.find? (fun r => r.email == e) = some u)
    (hveq : v.email = u.email) :
    (db.map (fun r => if r.id == u.id then v else r)).find?
        (fun r => r.email == e) = some v := by
  rw [List.find?_map]
  have hcong : ∀ x ∈ db,
      ((fun r => r.email == e) ∘ fun r => if r.id == u.id then v else r) x =
        (fun r => r.email == e) x := by
    intro x hx
    dsimp only [Function.comp]
    by_cases hid : x.id == u.id
    · rw [if_pos hid]
      have hxu : x = u :=
        List.inj_on_of_nodup_map hids hx (List.mem_of_find?_eq_some hu)
          (by simpa using hid)
      rw [hveq, hxu]
    · rw [if_neg hid]
  rw [find?_congr_mem hcong, hu]
  simp

lemma find?_id_map_update {db : Db} {u v : User} {i : String}
    (hvid : v.id = u.id)
    (hfind : db.find? (fun r => r.id == i) = some u) :
    (db.map (fun r => if r.id == u.id then v else r)).find?
        (fun r => r.id == i) = some v := by
  rw [List.find?_map]
  have hcong : ∀ x ∈ db,
      ((fun r => r.id == i) ∘ fun r => if r.id == u.id then v else r) x =
        (fun r => r.id == i) x := by
    intro x hx
    dsimp only [Function.comp]
    by_cases hid : x.id == u.id
    · rw [if_pos hid, hvid]
      have hxu : x.id = u.id := by simpa using hid
      rw [hxu]
    · rw [if_neg hid]
  rw [find?_congr_mem hcong, hfind]
  simp

lemma isPrefixOf_append_self (l r : List Char) :
    l.isPrefixOf (l ++ r) = true := by
  induction l with
  | nil => simp [List.isPrefixOf]
  | cons a as ih => simp [List.isPrefixOf, ih]

lemma bearerScheme_split : bearerScheme = "Bearer".toList ++ [' '] := rfl

lemma extractToken_scheme_append (rest : JsStr) :
    extractToken (some (bearerScheme ++ rest)) =
      (if (("Bearer".toList :: rest.splitOnP (fun c => c == ' ')).filter
            (fun part => decide (0 < part.length))).length > 1
       then (("Bearer".toList :: rest.splitOnP (fun c => c == ' ')).filter
            (fun part => decide (0 < part.length)))[1]?
       else none) := by
  have hify : (bearerScheme ++ rest).isEmpty = false := rfl
  have hpre : bearerScheme.isPrefixOf (bearerScheme ++ rest) = true :=
    isPrefixOf_append_self _ _
  have hsplit : (bearerScheme ++ rest).splitOnP (fun c => c == ' ') =
      "Bearer".toList :: rest.splitOnP (fun c => c == ' ') := by
    have harr : bearerScheme ++ rest = "Bearer".toList ++ ' ' :: rest := by
      rw [bearerScheme_split, List.append_assoc, List.singleton_append]
    rw [harr]
    exact List.splitOnP_first _ _ (by decide) _ (by decide) _
  unfold extractToken
  dsimp only
  rw [hify, hpre, hsplit]
  simp only [Bool.false_eq_true, if_false, if_true]

lemma splitOnP_replicate_space (k : Nat) (tok : JsStr)
    (hns : ∀ c ∈ tok, c ≠ ' ') :
    (List.replicate k ' ' ++ tok).splitOnP (fun c => c == ' ') =
      List.replicate k [] ++ [tok] := by
  induction k with
  | zero =>
      simpa using List.splitOnP_eq_single _ tok
        (fun c hc => by simpa using hns c hc)
  | succ n ih =>
      rw [List.replicate_succ, List.cons_append, List.splitOnP_cons,
        if_pos (by decide), ih, List.replicate_succ, List.cons_append]

lemma two_cons_select (a b : JsStr) (l : List JsStr) :
    (if (a :: b :: l).length > 1 then (a :: b :: l)[1]? else none) =
      some b := by
  rw [if_pos (by simp [List.length_cons]), List.getElem?_cons_succ,
    List.getElem?_cons_zero]

/-! Claim theorems. -/

/-- Claim C1 (code bug): the claim states that after a successful
`register`, a `login` with the same plaintext password succeeds because
the second save inside `register` skips password hashing and leaves the
stored digest unchanged. On the code this fails: the `hashPassword`
listener only skips hashing when the password field is empty, and after
the first save the field holds the (nonempty) digest, so the second save
(persisting the refresh token) hashes the digest again. This theorem
evaluates the code at the failing input: registration succeeds, the
stored password column ends up doubly hashed, and the subsequent login
with the original plaintext is rejected with `Invalid credentials`. -/
theorem c1_double_hash_breaks_login :
    registerW.isOk = true ∧
    (findOneByEmail registerWDb "john@example.com").map User.password =
      some (bcryptHash (bcryptHash "password123")) ∧
    registerThenLoginW =
      Except.error (AppError.unauthorized "Invalid credentials") := by
  refine ⟨rfl, rfl, rfl⟩

/-- Claim C2: logout is idempotent and total — running it twice equals
running it once, after it every row of the identity has no stored
refresh token, and a refresh with any token naming that identity as its
subject fails with the single `Invalid refresh token` error. -/
theorem c2_logout_idempotent :
    (∀ (db : Db) (i : String),
        AuthService.logout (AuthService.logout db i) i =
          AuthService.logout db i)
    ∧ (∀ (db : Db) (i : String) (u : User),
        u ∈ AuthService.logout db i → u.id = i → u.refreshToken = none)
    ∧ (∀ (db : Db) (i : String) (t : TokenStr) (now : Nat),
        tokenSubjectId t = some i →
        AuthService.refreshToken (dbLookupById (AuthService.logout db i)) t
            now =
          Except.error (AppError.unauthorized "Invalid refresh token")) := by
  refine ⟨?_, ?_, ?_⟩
  · intro db i
    unfold AuthService.logout
    rw [List.map_map]
    refine List.map_congr_left (fun r _ => ?_)
    by_cases h : r.id == i
    · simp only [Function.comp_apply, if_pos h]
    · simp only [Function.comp_apply, if_neg h, if_neg h]
  · intro db i u hu hid
    exact logout_refreshToken_none hu hid
  · intro db i t now hsub
    cases t with
    | malformed raw => exact absurd hsub (by simp [tokenSubjectId])
    | signed p secret iat exp =>
        have hpid : p.userId = i := by
          simpa [tokenSubjectId] using hsub
        unfold AuthService.refreshToken verifyToken
        dsimp only
        by_cases hs : secret ≠ jwtSecret
        · rw [if_pos hs]
        · rw [if_neg hs]
          by_cases he : exp ≤ now
          · rw [if_pos he]
          · rw [if_neg he]
            dsimp only
            by_cases hty : p.type ≠ "refresh"
            · rw [if_pos hty]
            · rw [if_neg hty]
              unfold dbLookupById findOneById
              rw [hpid]
              cases hfind :
                  (AuthService.logout db i).find? (fun u => u.id == i) with
              | none => rfl
              | some v =>
                  dsimp only
                  have hvid : v.id = i := by
                    have := List.find?_some hfind
                    simpa using this
                  have hvrt : v.refreshToken = none :=
                    logout_refreshToken_none
                      (List.mem_of_find?_eq_some hfind) hvid
                  rw [if_pos (by simp [hvrt])]

/-- Witness for C2 at a concrete table, identity and token. -/
theorem c2_witness :
    AuthService.refreshToken (dbLookupById (AuthService.logout [uW] "u1"))
        (TokenStr.signed
          { userId := "u1", email := "john@example.com", type := "refresh" }
          jwtSecret 0 10) 0 =
      Except.error (AppError.unauthorized "Invalid refresh token") ∧
    AuthService.logout (AuthService.logout [uW] "u1") "u1" =
      AuthService.logout [uW] "u1" :=
  ⟨c2_logout_idempotent.2.2 [uW] "u1" _ 0 rfl,
    c2_logout_idempotent.1 [uW] "u1"⟩

/-- Counterexample for C3 as stated: two successful logins for the same
identity at the same clock second issue byte-identical refresh tokens
(deterministic signing with equal payload, secret, iat and exp), so the
token issued by the first login is still the stored token and a
subsequent `refresh` with it succeeds. The composed run — first login,
second successful login, then `refresh` with the first token — returns
`ok`, contradicting that the first token no longer succeeds after a
second successful login. -/
theorem c3_counterexample : c3SameTime.isOk = true := by rfl

/-- Claim C3 as amended: (1) `refresh(t)` succeeds only if `t` is a
signed token under the configured secret and textually equals the stored
`refreshToken` of the identity it names; (2) after a second successful
login for the same identity at a different timestamp (so that the newly
issued token differs from the first), the refresh token issued by the
first login no longer succeeds. -/
theorem c3_amended :
    (∀ (db : Db) (t : TokenStr) (now : Nat) (a : TokenStr),
        AuthService.refreshToken (dbLookupById db) t now = Except.ok a →
        ∃ (p : TokenPayload) (iat exp : Nat) (u : User),
          t = TokenStr.signed p jwtSecret iat exp ∧
          findOneById db p.userId = some u ∧
          u.refreshToken = some t)
    ∧ (∀ (db : Db) (d1 d2 : LoginDTO) (now1 now2 now3 : Nat)
        (r1 : AuthResponse) (db1 : Db) (r2 : AuthResponse) (db2 : Db),
        (db.map User.id).Nodup →
        d2.email = d1.email →
        AuthService.login db d1 now1 = Except.ok (r1, db1) →
        AuthService.login db1 d2 now2 = Except.ok (r2, db2) →
        now1 ≠ now2 →
        AuthService.refreshToken (dbLookupById db2) r1.refreshToken now3 =
          Except.error (AppError.unauthorized "Invalid refresh token")) := by
  constructor
  · intro db t now a h
    unfold AuthService.refreshToken at h
    cases t with
    | malformed raw =>
        unfold verifyToken at h
        exact absurd h (by simp)
    | signed p sec iat exp =>
        unfold verifyToken at h
        dsimp only at h
        by_cases hs : sec ≠ jwtSecret
        · rw [if_pos hs] at h; exact absurd h (by simp)
        · rw [if_neg hs] at h
          have hsec : sec = jwtSecret := not_not.mp hs
          by_cases he : exp ≤ now
          · rw [if_pos he] at h; exact absurd h (by simp)
          · rw [if_neg he] at h
            dsimp only at h
            by_cases hty : p.type ≠ "refresh"
            · rw [if_pos hty] at h; exact absurd h (by simp)
            · rw [if_neg hty] at h
              unfold dbLookupById at h
              cases hfind : findOneById db p.userId with
              | none => rw [hfind] at h; exact absurd h (by simp)
              | some w =>
                  rw [hfind] at h
                  dsimp only at h
                  by_cases hrt :
                      w.refreshToken ≠ some (TokenStr.signed p sec iat exp)
                  · rw [if_pos hrt] at h; exact absurd h (by simp)
                  · rw [if_neg hrt] at h
                    refine ⟨p, iat, exp, w, by rw [hsec], hfind, ?_⟩
                    have := not_not.mp hrt
                    rw [this, hsec]
  · intro db d1 d2 now1 now2 now3 r1 db1 r2 db2 hids hemail h1 h2 hne
    obtain ⟨u, hf1, hrt1, hdb1⟩ := login_ok_unpack h1
    have hu : u ∈ db := List.mem_of_find?_eq_some hf1
    have huid : db.find? (fun r => r.id == u.id) = some u :=
      find?_key_unique User.id hids hu
    have hrs1 := repoSave_update u
      { u with refreshToken := some (generateRefreshToken u now1),
               lastLoginAt := some now1 } now1 rfl huid
    rw [hrs1] at hdb1
    dsimp only at hdb1
    obtain ⟨v, hf2, hrt2, hdb2⟩ := login_ok_unpack h2
    have hfind2 : findOneByEmail db1 d2.email =
        some { User.hashPassword
                { u with refreshToken := some (generateRefreshToken u now1),
                         lastLoginAt := some now1 } with
               updatedAt := some now1 } := by
      rw [hdb1, hemail]
      exact find?_email_map_update hids hf1 (by rw [hashPassword_email])
    have hveq : v = { User.hashPassword
        { u with refreshToken := some (generateRefreshToken u now1),
                 lastLoginAt := some now1 } with
        updatedAt := some now1 } := by
      rw [hf2] at hfind2
      exact Option.some.inj hfind2
    have huid1 : db1.find? (fun r => r.id == u.id) =
        some { User.hashPassword
                { u with refreshToken := some (generateRefreshToken u now1),
                         lastLoginAt := some now1 } with
               updatedAt := some now1 } := by
      rw [hdb1]
      exact find?_id_map_update (by rw [hashPassword_id]) huid
    have hvid : v.id = u.id := by rw [hveq, hashPassword_id]
    have hfindv : db1.find? (fun r => r.id == v.id) = some v := by
      simp only [hvid]
      rw [huid1, hveq]
    have hrs2 := repoSave_update v
      { v with refreshToken := some (generateRefreshToken v now2),
               lastLoginAt := some now2 } now2 rfl hfindv
    rw [hrs2] at hdb2
    dsimp only at hdb2
    have hfindFinal : db2.find? (fun r => r.id == u.id) =
        some { User.hashPassword
                { v with refreshToken := some (generateRefreshToken v now2),
                         lastLoginAt := some now2 } with
               updatedAt := some now2 } := by
      rw [hdb2]
      refine find?_id_map_update (by rw [hashPassword_id]) ?_
      rw [hvid] at hfindv
      exact hfindv
    have hs2rt : ({ User.hashPassword
        { v with refreshToken := some (generateRefreshToken v now2),
                 lastLoginAt := some now2 } with
        updatedAt := some now2 } : User).refreshToken =
        some (generateRefreshToken v now2) := by
      rw [hashPassword_refreshToken]
    rw [hrt1]
    unfold AuthService.refreshToken verifyToken generateRefreshToken
    dsimp only
    rw [if_neg (by simp)]
    by_cases hexp : now1 + jwtRefreshExpirationS ≤ now3
    · rw [if_pos hexp]
    · rw [if_neg hexp]
      dsimp only
      rw [if_neg (by simp)]
      unfold dbLookupById findOneById
      rw [hfindFinal]
      dsimp only
      rw [if_pos ?hne2]
      case hne2 =>
        rw [hs2rt]
        intro hcon
        have heq := Option.some.inj hcon
        unfold generateRefreshToken at heq
        rw [TokenStr.signed.injEq] at heq
        exact hne heq.2.2.1.symm

/-- Witness for C3 as amended, at the concrete two-login run with
distinct timestamps. -/
theorem c3_witness :
    AuthService.refreshToken (dbLookupById c3L2.2) c3L1.1.refreshToken 7 =
      Except.error (AppError.unauthorized "Invalid refresh token") :=
  c3_amended.2 c3Db loginDtoA loginDtoB 5 6 7 c3L1.1 c3L1.2 c3L2.1 c3L2.2
    (by decide) rfl rfl rfl (by decide)

/-- Claim C4: for every lookup behaviour (including a storage
exception), every token and every clock, `refresh` either succeeds or
fails with exactly the single error
`UnauthorizedError with message Invalid refresh token`; no codec or
storage exception escapes. -/
theorem c4_single_error_kind (lookupById : IdLookup) (t : TokenStr)
    (now : Nat) :
    (∃ a, AuthService.refreshToken lookupById t now = Except.ok a) ∨
    AuthService.refreshToken lookupById t now =
      Except.error (AppError.unauthorized "Invalid refresh token") := by
  unfold AuthService.refreshToken
  cases verifyToken t now with
  | error e => exact Or.inr rfl
  | ok payload =>
      dsimp only
      by_cases hty : payload.type = "refresh"
      · rw [if_neg (by simp [hty])]
        cases lookupById payload.userId with
        | error m => exact Or.inr rfl
        | ok ou =>
            cases ou with
            | none => exact Or.inr rfl
            | some user =>
                dsimp only
                by_cases hrt : user.refreshToken = some t
                · exact Or.inl ⟨_, by rw [if_neg (by simp [hrt])]⟩
                · exact Or.inr (by rw [if_pos hrt])
      · exact Or.inr (by rw [if_pos hty])

/-- Claim C5: kind isolation in both directions. A token that decodes
to a refresh-kind payload — even cryptographically valid and unexpired —
is rejected by the required-mode gate with `Unauthorized`, and a token
whose payload kind is access is rejected by `refresh` with
`Invalid refresh token`. -/
theorem c5_kind_isolation :
    (∀ (hdr : Option JsStr) (interp : JsStr → TokenStr)
        (lookupById : IdLookup) (now : Nat) (s : JsStr) (p : TokenPayload)
        (iat exp : Nat),
        extractToken hdr = some s →
        interp s = TokenStr.signed p jwtSecret iat exp →
        now < exp → p.type = "refresh" →
        authenticate hdr interp lookupById now =
          { ctx := emptyCtx,
            err := some (AppError.unauthorized "Invalid token type") })
    ∧ (∀ (lookupById : IdLookup) (p : TokenPayload) (secret : String)
        (iat exp now : Nat), p.type = "access" →
        AuthService.refreshToken lookupById
            (TokenStr.signed p secret iat exp) now =
          Except.error (AppError.unauthorized "Invalid refresh token")) := by
  constructor
  · intro hdr interp lookupById now s p iat exp hex hint hlt hty
    unfold authenticate authenticateCore
    rw [hex]
    dsimp only
    rw [hint]
    simp [verifyToken, Nat.not_le.mpr hlt, hty]
  · intro lookupById p secret iat exp now hty
    unfold AuthService.refreshToken verifyToken
    dsimp only
    by_cases hs : secret ≠ jwtSecret
    · rw [if_pos hs]
    · rw [if_neg hs]
      by_cases he : exp ≤ now
      · rw [if_pos he]
      · rw [if_neg he]
        dsimp only
        rw [if_pos (by simp [hty])]

/-- Witness for C5 at a concrete header, payloads and store. -/
theorem c5_witness :
    authenticate (some ("Bearer r".toList))
        (fun _ =>
          TokenStr.signed
            { userId := "u1", email := "john@example.com", type := "refresh" }
            jwtSecret 0 10)
        (dbLookupById [uW]) 0 =
      { ctx := emptyCtx,
        err := some (AppError.unauthorized "Invalid token type") } ∧
    AuthService.refreshToken (dbLookupById [uW])
        (TokenStr.signed
          { userId := "u1", email := "john@example.com", type := "access" }
          jwtSecret 0 10) 0 =
      Except.error (AppError.unauthorized "Invalid refresh token") :=
  ⟨c5_kind_isolation.1 (some ("Bearer r".toList)) _ (dbLookupById [uW]) 0
      ("r".toList) _ 0 10 (by decide) rfl (by decide) rfl,
    c5_kind_isolation.2 (dbLookupById [uW]) _ jwtSecret 0 10 0 rfl⟩

/-- Claim C6: issue/verify round-trip. For every identity, every issue
time and each kind, verifying the issued token before the expiry of its
kind succeeds and returns exactly the issued subject id, email and
kind. -/
theorem c6_issue_verify_roundtrip (u : User) (now t : Nat) :
    (t < now + jwtExpirationS →
      verifyToken (generateAccessToken u now) t =
        Except.ok { userId := u.id, email := u.email, type := "access" })
    ∧ (t < now + jwtRefreshExpirationS →
      verifyToken (generateRefreshToken u now) t =
        Except.ok { userId := u.id, email := u.email, type := "refresh" }) := by
  constructor <;> intro h <;>
    simp [verifyToken, generateAccessToken, generateRefreshToken,
      Nat.not_le.mpr h]

/-- Witness for C6 at a concrete identity and clock. -/
theorem c6_witness :
    verifyToken (generateAccessToken uW 0) 1 =
      Except.ok { userId := "u1", email := "john@example.com",
                  type := "access" } :=
  (c6_issue_verify_roundtrip uW 0 1).1 (by decide)

/-- Counterexample for C7 as stated: a header with two token segments
after the scheme still yields a token (the first segment) instead of
being treated as an invalid extraction. -/
theorem c7_counterexample :
    extractToken (some ("Bearer abc def".toList)) = some ("abc".toList) ∧
    extractToken (some ("Bearer abc def".toList)) ≠ none := by
  refine ⟨rfl, by decide⟩

/-- Claim C7 as amended: extraction accepts the exact scheme `Bearer`
followed by at least one token segment and returns the first segment
after the scheme; runs of extra spaces between scheme and token are
collapsed; a header of only `Bearer`, or `Bearer` followed only by
spaces, yields no token; when several segments follow, the first is
returned and the rest are ignored. -/
theorem c7_amended :
    (∀ tok : JsStr, tok ≠ [] → (∀ c ∈ tok, c ≠ ' ') →
        extractToken (some (bearerScheme ++ tok)) = some tok)
    ∧ (∀ (k : Nat) (tok : JsStr), tok ≠ [] → (∀ c ∈ tok, c ≠ ' ') →
        extractToken
            (some (bearerScheme ++ (List.replicate k ' ' ++ tok))) =
          some tok)
    ∧ (∀ k : Nat,
        extractToken (some ("Bearer".toList ++ List.replicate k ' ')) = none)
    ∧ (∀ (t1 t2 : JsStr), t1 ≠ [] → (∀ c ∈ t1, c ≠ ' ') →
        extractToken (some (bearerScheme ++ (t1 ++ ' ' :: t2))) =
          some t1) := by
  have hq1 : ∀ tok : JsStr, tok ≠ [] →
      (decide (0 < tok.length)) = true := by
    intro tok h
    simpa using List.length_pos.mpr h
  have hqB : (decide (0 < ("Bearer".toList).length)) = true := by decide
  have hqE : ¬ ((decide (0 < ([] : JsStr).length)) = true) := by decide
  refine ⟨?_, ?_, ?_, ?_⟩
  · intro tok hne hns
    have hnsb : ∀ c ∈ tok, ¬((c == ' ') = true) :=
      fun c hc => by simpa using hns c hc
    rw [extractToken_scheme_append,
      List.splitOnP_eq_single (fun c => c == ' ') tok hnsb]
    rw [List.filter_cons, if_pos hqB, List.filter_cons,
      if_pos (hq1 tok hne), List.filter_nil]
    exact two_cons_select _ _ _
  · intro k tok hne hns
    rw [extractToken_scheme_append, splitOnP_replicate_space k tok hns]
    rw [List.filter_cons, if_pos hqB, List.filter_append,
      List.filter_replicate, if_neg hqE, List.filter_cons,
      if_pos (hq1 tok hne), List.filter_nil]
    exact two_cons_select _ _ _
  · intro k
    cases k with
    | zero => rfl
    | succ n =>
        have harr : "Bearer".toList ++ List.replicate (n + 1) ' ' =
            bearerScheme ++ List.replicate n ' ' := by
          rw [bearerScheme_split, List.append_assoc, List.singleton_append,
            List.replicate_succ]
        have hrep : List.replicate n ' ' = List.replicate n ' ' ++ [] := by
          rw [List.append_nil]
        rw [harr, extractToken_scheme_append, hrep,
          splitOnP_replicate_space n []
            (fun c hc => absurd hc (List.not_mem_nil c))]
        rw [List.filter_cons, if_pos hqB, List.filter_append,
          List.filter_replicate, if_neg hqE, List.filter_cons,
          if_neg hqE, List.filter_nil]
        rfl
  · intro t1 t2 hne hns
    have hsp : (t1 ++ ' ' :: t2).splitOnP (fun c => c == ' ') =
        t1 :: t2.splitOnP (fun c => c == ' ') :=
      List.splitOnP_first _ _ (fun c hc => by simpa using hns c hc) _
        (by decide) _
    rw [extractToken_scheme_append, hsp]
    rw [List.filter_cons, if_pos hqB, List.filter_cons, if_pos (hq1 t1 hne)]
    exact two_cons_select _ _ _

/-- Witness for C7 as amended, at concrete headers. -/
theorem c7_witness :
    extractToken
        (some (bearerScheme ++ ("abc".toList ++ ' ' :: "def".toList))) =
      some ("abc".toList) ∧
    extractToken (some ("Bearer".toList ++ List.replicate 3 ' ')) = none :=
  ⟨c7_amended.2.2.2 ("abc".toList) ("def".toList) (by decide) (by decide),
    c7_amended.2.2.1 3⟩

/-- Counterexample for C8 as stated: the claim excepts genuine
persistence failures from the silent pass-through, but the catch-all in
`optionalAuth` swallows a storage exception raised during the identity
lookup as well — the request continues with nothing attached and no
error. Here the header carries a valid, unexpired access token and the
store raises on every lookup. -/
theorem c8_counterexample :
    optionalAuth (some ("Bearer tok".toList)) interpC8 lookupFailC8 0 =
      { ctx := emptyCtx, err := none } := by
  rfl

/-- Claim C8 as amended: in optional mode, every not-authenticated
outcome — no extractable token (missing or malformed header), failed
token verification, wrong token kind, a persistence failure raised
during the identity lookup, and an unknown identity — results in exactly
the pass-through with nothing attached and no error; and no execution of
the optional gate surfaces an error. -/
theorem c8_amended (hdr : Option JsStr) (interp : JsStr → TokenStr)
    (lookupById : IdLookup) (now : Nat) :
    (extractToken hdr = none →
      optionalAuth hdr interp lookupById now =
        { ctx := emptyCtx, err := none })
    ∧ (∀ (s : JsStr) (e : JwtError), extractToken hdr = some s →
        verifyToken (interp s) now = Except.error e →
        optionalAuth hdr interp lookupById now =
          { ctx := emptyCtx, err := none })
    ∧ (∀ (s : JsStr) (p : TokenPayload), extractToken hdr = some s →
        verifyToken (interp s) now = Except.ok p → p.type ≠ "access" →
        optionalAuth hdr interp lookupById now =
          { ctx := emptyCtx, err := none })
    ∧ (∀ (s : JsStr) (p : TokenPayload) (m : String),
        extractToken hdr = some s →
        verifyToken (interp s) now = Except.ok p → p.type = "access" →
        lookupById p.userId = Except.error m →
        optionalAuth hdr interp lookupById now =
          { ctx := emptyCtx, err := none })
    ∧ (∀ (s : JsStr) (p : TokenPayload), extractToken hdr = some s →
        verifyToken (interp s) now = Except.ok p → p.type = "access" →
        lookupById p.userId = Except.ok none →
        optionalAuth hdr interp lookupById now =
          { ctx := emptyCtx, err := none })
    ∧ (optionalAuth hdr interp lookupById now).err = none := by
  refine ⟨?_, ?_, ?_, ?_, ?_, ?_⟩
  · intro hex
    unfold optionalAuth optionalAuthCore
    rw [hex]
  · intro s e hex hv
    unfold optionalAuth optionalAuthCore
    rw [hex]
    dsimp only
    rw [hv]
  · intro s p hex hv hty
    unfold optionalAuth optionalAuthCore
    rw [hex]
    dsimp only
    rw [hv]
    dsimp only
    rw [if_pos hty]
  · intro s p m hex hv hty hl
    unfold optionalAuth optionalAuthCore
    rw [hex]
    dsimp only
    rw [hv]
    dsimp only
    rw [if_neg (by simp [hty]), hl]
  · intro s p hex hv hty hl
    unfold optionalAuth optionalAuthCore
    rw [hex]
    dsimp only
    rw [hv]
    dsimp only
    rw [if_neg (by simp [hty]), hl]
  · unfold optionalAuth optionalAuthCore
    cases extractToken hdr with
    | none => rfl
    | some s =>
        dsimp only
        cases verifyToken (interp s) now with
        | error e => rfl
        | ok payload =>
            dsimp only
            by_cases hty : payload.type ≠ "access"
            · rw [if_pos hty]
            · rw [if_neg hty]
              cases lookupById payload.userId with
              | error m => rfl
              | ok ou =>
                  cases ou with
                  | none => rfl
                  | some user => rfl

/-- Witness for C8 as amended: the persistence-failure conjunct applied
at a concrete header, a valid access token and a store that raises on
every lookup — the gate passes the request on with nothing attached. -/
theorem c8_witness :
    optionalAuth (some ("Bearer x".toList)) interpC8 lookupFailC8 0 =
      { ctx := emptyCtx, err := none } :=
  (c8_amended (some ("Bearer x".toList)) interpC8 lookupFailC8
      0).2.2.2.1 ("x".toList)
    { userId := "u1", email := "john@example.com", type := "access" }
    "database connection lost" rfl rfl rfl rfl

/-- Claim C9: projection hygiene — the identity projection inside every
successful `register` or `login` response carries neither the password
column nor the stored refresh token, whatever the row holds. -/
theorem c9_projection_hygiene :
    (∀ (db : Db) (data : RegisterDTO) (newId : String) (now : Nat)
        (r : AuthResponse) (db2 : Db),
        AuthService.register db data newId now = Except.ok (r, db2) →
        "password" ∉ r.user.map Prod.fst ∧
        "refreshToken" ∉ r.user.map Prod.fst)
    ∧ (∀ (db : Db) (data : LoginDTO) (now : Nat) (r : AuthResponse)
        (db2 : Db),
        AuthService.login db data now = Except.ok (r, db2) →
        "password" ∉ r.user.map Prod.fst ∧
        "refreshToken" ∉ r.user.map Prod.fst) := by
  constructor
  · intro db data newId now r db2 h
    unfold AuthService.register at h
    cases hf : findOneByEmail db data.email with
    | some u => rw [hf] at h; exact absurd h (by simp)
    | none =>
        rw [hf] at h
        dsimp only at h
        rw [Except.ok.injEq, Prod.mk.injEq] at h
        rw [← h.1]
        exact toJSON_no_secret_keys _
  · intro db data now r db2 h
    unfold AuthService.login at h
    cases hf : findOneByEmail db data.email with
    | none => rw [hf] at h; exact absurd h (by simp)
    | some u =>
        rw [hf] at h
        dsimp only at h
        by_cases hc : User.comparePassword u data.password = false
        · rw [if_pos hc] at h; exact absurd h (by simp)
        · rw [if_neg hc] at h
          rw [Except.ok.injEq, Prod.mk.injEq] at h
          rw [← h.1]
          exact toJSON_no_secret_keys _

/-- Witness for C9 at the concrete registration run. -/
theorem c9_witness :
    "password" ∉ registerWRes.user.map Prod.fst ∧
    "refreshToken" ∉ registerWRes.user.map Prod.fst :=
  c9_projection_hygiene.1 [] regDataW "u1" 0 registerWRes registerWDb rfl

/-- Claim C10: context attachment is all-or-nothing — in both gate
modes, for every request either nothing is attached or the resolved
identity, the raw token string and the decoded payload are all three
attached. -/
theorem c10_all_or_nothing (hdr : Option JsStr) (interp : JsStr → TokenStr)
    (lookupById : IdLookup) (now : Nat) :
    allOrNothing (authenticate hdr interp lookupById now).ctx ∧
    allOrNothing (optionalAuth hdr interp lookupById now).ctx := by
  constructor
  · unfold authenticate authenticateCore
    cases extractToken hdr with
    | none => exact Or.inl rfl
    | some s =>
        dsimp only
        cases verifyToken (interp s) now with
        | error e => exact Or.inl rfl
        | ok payload =>
            dsimp only
            by_cases hty : payload.type ≠ "access"
            · rw [if_pos hty]; exact Or.inl rfl
            · rw [if_neg hty]
              cases lookupById payload.userId with
              | error m => exact Or.inl rfl
              | ok ou =>
                  cases ou with
                  | none => exact Or.inl rfl
                  | some user => exact Or.inr ⟨user, s, payload, rfl⟩
  · unfold optionalAuth optionalAuthCore
    cases extractToken hdr with
    | none => exact Or.inl rfl
    | some s =>
        dsimp only
        cases verifyToken (interp s) now with
        | error e => exact Or.inl rfl
        | ok payload =>
            dsimp only
            by_cases hty : payload.type ≠ "access"
            · rw [if_pos hty]; exact Or.inl rfl
            · rw [if_neg hty]
              cases lookupById payload.userId with
              | error m => exact Or.inl rfl
              | ok ou =>
                  cases ou with
                  | none => exact Or.inl rfl
                  | some user => exact Or.inr ⟨user, s, payload, rfl⟩
